import Mathlib

/-!
Shallow embedding of the patient record service in src/main.py.

Numeric values that the Python program holds as floats are modelled as exact
rationals; Python round-to-2-decimals (banker's rounding) is modelled by
roundHalfEven.  The persisted dictionary patients.json is modelled as an
association list with unique keys (Mathlib AList), matching Python dict
semantics.  HTTP-level validation errors (pydantic / FastAPI 422) and the
handler-raised 422 are both modelled by ApiErr.validation; 404 by
ApiErr.notFound; rejection of an unsupported sort field or direction by
ApiErr.invalidArgument.
-/

namespace Hospital

/-- Round a rational to the nearest integer, ties to even, as Python round. -/
def roundHalfEven (q : ℚ) : ℤ :=
  if q - ⌊q⌋ < 1/2 then ⌊q⌋
  else if 1/2 < q - ⌊q⌋ then ⌊q⌋ + 1
  else if ⌊q⌋ % 2 = 0 then ⌊q⌋ else ⌊q⌋ + 1

/-- Python round(q, 2): round to two decimal places. -/
def round2 (q : ℚ) : ℚ := (roundHalfEven (q * 100) : ℚ) / 100

/-- PatientCreate.bmi: round(weight / height ** 2, 2). -/
def bmiVal (height weight : ℚ) : ℚ := round2 (weight / height ^ 2)

/-- PatientCreate.verdict: the threshold ladder, first match wins. -/
def verdictOf (b : ℚ) : String :=
  if b < 18.5 then "Underweight"
  else if b < 25 then "Normal"
  else if b < 30 then "Overweight"
  else "Obese"

/-- The closed set of the gender Literal annotation. -/
def genders : List String := ["male", "female", "others"]

/-- The six client-supplied fields of PatientCreate. -/
structure PatientFields where
  name : String
  city : String
  age : ℤ
  gender : String
  height : ℚ
  weight : ℚ
deriving DecidableEq

/-- Field bounds of PatientCreate (and hence of Patient): name and city
min_length 2, age in 1..120, gender in the Literal set, 0.4 < height ≤ 2.5,
10.0 < weight ≤ 300.0.  No maximum length is declared for name or city. -/
def validCreate (p : PatientFields) : Prop :=
  2 ≤ p.name.length ∧ 2 ≤ p.city.length ∧
  1 ≤ p.age ∧ p.age ≤ 120 ∧
  p.gender ∈ genders ∧
  0.4 < p.height ∧ p.height ≤ 2.5 ∧
  10.0 < p.weight ∧ p.weight ≤ 300.0

instance (p : PatientFields) : Decidable (validCreate p) := by
  unfold validCreate; infer_instance

/-- One stored patient dictionary.  id is the optional "id" key: create
stores it, update rewrites the record without it. -/
structure StoredRecord where
  id : Option String
  name : String
  city : String
  age : ℤ
  gender : String
  height : ℚ
  weight : ℚ
  bmi : ℚ
  verdict : String
deriving DecidableEq

/-- model_dump of a validated patient: the six fields plus the computed
bmi and verdict, with the given optional "id" entry. -/
def mkStored (p : PatientFields) (i : Option String) : StoredRecord :=
  { id := i, name := p.name, city := p.city, age := p.age, gender := p.gender,
    height := p.height, weight := p.weight,
    bmi := bmiVal p.height p.weight,
    verdict := verdictOf (bmiVal p.height p.weight) }

/-- The six mutable fields of a stored record. -/
def fieldsOf (r : StoredRecord) : PatientFields :=
  { name := r.name, city := r.city, age := r.age, gender := r.gender,
    height := r.height, weight := r.weight }

/-- The persisted dictionary: id to stored record, keys unique. -/
def RecordSet : Type := AList (fun _ : String => StoredRecord)

instance : EmptyCollection RecordSet := ⟨(∅ : AList _)⟩
instance : Membership String RecordSet := ⟨fun (s : AList _) a => a ∈ s⟩

/-- Dictionary lookup data.get(pid). -/
def RecordSet.lookup (data : RecordSet) (pid : String) : Option StoredRecord :=
  AList.lookup pid data

/-- Dictionary write data[pid] = r. -/
def RecordSet.store (data : RecordSet) (pid : String) (r : StoredRecord) : RecordSet :=
  AList.insert pid r data

/-- Dictionary removal del data[pid]. -/
def RecordSet.remove (data : RecordSet) (pid : String) : RecordSet :=
  AList.erase pid data

theorem RecordSet.lookup_store_self (data : RecordSet) (pid : String) (r : StoredRecord) :
    (data.store pid r).lookup pid = some r :=
  AList.lookup_insert data

theorem RecordSet.lookup_store_ne (data : RecordSet) {pid pid' : String}
    (r : StoredRecord) (h : pid ≠ pid') :
    (data.store pid' r).lookup pid = data.lookup pid :=
  AList.lookup_insert_ne h

theorem RecordSet.lookup_remove_self (data : RecordSet) (pid : String) :
    (data.remove pid).lookup pid = none :=
  AList.lookup_erase pid data

theorem RecordSet.lookup_remove_ne (data : RecordSet) {pid pid' : String}
    (h : pid ≠ pid') :
    (data.remove pid').lookup pid = data.lookup pid :=
  AList.lookup_erase_ne h

theorem RecordSet.lookup_eq_none_iff {pid : String} {d : RecordSet} :
    d.lookup pid = none ↔ pid ∉ d :=
  AList.lookup_eq_none

theorem RecordSet.lookup_empty (pid : String) :
    (∅ : RecordSet).lookup pid = none :=
  AList.lookup_empty pid

/-- The possible states of the patients.json file seen by load_data. -/
inductive DiskState where
  | missing
  | corrupt
  | ok (rs : RecordSet)

/-- Error outcomes surfaced to the HTTP caller. -/
inductive ApiErr where
  | validation
  | notFound
  | invalidArgument
deriving DecidableEq

/-- load_data: returns the parsed file, and an empty dict on
FileNotFoundError or JSONDecodeError. -/
def load_data : DiskState → RecordSet
  | .missing => ∅
  | .corrupt => ∅
  | .ok rs => rs

/-- view_patient: look the id up, 404 when absent. -/
def view_patient (pid : String) (data : RecordSet) : Except ApiErr StoredRecord :=
  match data.lookup pid with
  | some r => .ok r
  | none => .error .notFound

/-- create_patient.  cands is the stream of 8-character tokens the allocator
draws in order; the while loop takes the first one not already a key.  The
result is none when no candidate in the stream is fresh (the loop has not
terminated within the given draws); otherwise the validation outcome, with
the new id, the stored record and the new record set on success. -/
def create_patient (p : PatientFields) (cands : List String) (data : RecordSet) :
    Option (Except ApiErr (String × StoredRecord × RecordSet)) :=
  if validCreate p then
    match cands.find? (fun c => (data.lookup c).isNone) with
    | some i => some (.ok (i, mkStored p (some i), data.store i (mkStored p (some i))))
    | none => none
  else some (.error .validation)

/-- The optional fields of PatientUpdate; none means the field was unset. -/
structure PatientUpdate where
  name : Option String
  city : Option String
  age : Option ℤ
  gender : Option String
  height : Option ℚ
  weight : Option ℚ
deriving DecidableEq

/-- Lift a predicate over an optional payload field; trivially true when unset. -/
def optOK {α : Type} (P : α → Prop) : Option α → Prop
  | none => True
  | some a => P a

instance {α : Type} (P : α → Prop) [DecidablePred P] :
    ∀ o : Option α, Decidable (optOK P o)
  | none => by unfold optOK; infer_instance
  | some _ => by unfold optOK; infer_instance

/-- Bounds that FastAPI checks on the PatientUpdate body itself: age, gender,
height and weight carry the same annotations as create, while name and city
are bare Optional strings with no constraint. -/
def validUpdatePayload (u : PatientUpdate) : Prop :=
  optOK (fun a : ℤ => 1 ≤ a ∧ a ≤ 120) u.age ∧
  optOK (fun g : String => g ∈ genders) u.gender ∧
  optOK (fun h : ℚ => 0.4 < h ∧ h ≤ 2.5) u.height ∧
  optOK (fun w : ℚ => 10.0 < w ∧ w ≤ 300.0) u.weight

instance (u : PatientUpdate) : Decidable (validUpdatePayload u) := by
  unfold validUpdatePayload; infer_instance

/-- existing.update(update_data): overlay the set fields of the payload on
the stored record's six fields. -/
def overlay (ex : StoredRecord) (u : PatientUpdate) : PatientFields :=
  { name := u.name.getD ex.name, city := u.city.getD ex.city,
    age := u.age.getD ex.age, gender := u.gender.getD ex.gender,
    height := u.height.getD ex.height, weight := u.weight.getD ex.weight }

/-- update_patient: body validation, 404 when the id is absent, rebuild
Patient(**existing) — which fails when the stored dict has no "id" key or the
overlaid fields break a bound — then store model_dump(exclude id), so the
rewritten record carries no "id" entry.  Returns the message payload's
patient_id together with the persisted record set. -/
def update_patient (pid : String) (u : PatientUpdate) (data : RecordSet) :
    Except ApiErr (String × RecordSet) :=
  if validUpdatePayload u then
    match data.lookup pid with
    | none => .error .notFound
    | some ex =>
      match ex.id with
      | none => .error .validation
      | some _ =>
        if validCreate (overlay ex u) then
          .ok (pid, data.store pid (mkStored (overlay ex u) none))
        else .error .validation
  else .error .validation

/-- delete_patient: 404 when absent, else remove and save. -/
def delete_patient (pid : String) (data : RecordSet) : Except ApiErr RecordSet :=
  match data.lookup pid with
  | none => .error .notFound
  | some _ => .ok (data.remove pid)

/-- The record set on disk after a create call: save_data runs only on the
success path. -/
def persistAfterCreate (p : PatientFields) (cands : List String) (data : RecordSet) :
    RecordSet :=
  match create_patient p cands data with
  | some (.ok (_, _, d₁)) => d₁
  | _ => data

/-- The record set on disk after an update call: save_data runs only on the
success path. -/
def persistAfterUpdate (pid : String) (u : PatientUpdate) (data : RecordSet) :
    RecordSet :=
  match update_patient pid u data with
  | .ok (_, d₁) => d₁
  | .error _ => data

/-- The record set on disk after a delete call. -/
def persistAfterDelete (pid : String) (data : RecordSet) : RecordSet :=
  match delete_patient pid data with
  | .ok d₁ => d₁
  | .error _ => data

/-- Sequential create calls; each failed or non-terminating call leaves the
set unchanged, each successful one contributes its id. -/
def createMany : List (PatientFields × List String) → RecordSet → List String × RecordSet
  | [], d => ([], d)
  | (p, cs) :: rest, d =>
    match create_patient p cs d with
    | some (.ok (i, _, d₁)) =>
      let r := createMany rest d₁
      (i :: r.1, r.2)
    | _ => createMany rest d

/-- A raw patient dictionary as sorting sees it: every key optional, so
legacy records missing fields are representable.  The sort key only ever
reads the height and weight entries. -/
structure RawRecord where
  id : Option String
  name : Option String
  city : Option String
  age : Option ℤ
  gender : Option String
  height : Option ℚ
  weight : Option ℚ
  bmi : Option ℚ
  verdict : Option String
deriving DecidableEq

/-- sort_key of sort_patients: for bmi recompute round(w / h ** 2, 2) with a
0 fallback for non-positive h, otherwise p.get(sort_by, 0) over the two
remaining admissible field names. -/
def sort_key (sort_by : String) (p : RawRecord) : ℚ :=
  if sort_by = "bmi" then
    if 0 < p.height.getD 0 then round2 (p.weight.getD 0 / p.height.getD 0 ^ 2) else 0
  else if sort_by = "height" then p.height.getD 0
  else p.weight.getD 0

/-- Ascending key comparison used by sorted(..., key=k). -/
def leAsc {α : Type} (f : α → ℚ) (a b : α) : Bool := decide (f a ≤ f b)

/-- Descending key comparison used by sorted(..., key=k, reverse=True). -/
def leDesc {α : Type} (f : α → ℚ) (a b : α) : Bool := decide (f b ≤ f a)

/-- Insert x in front of the first element y with le x y; keeps x before
later-inserted equals, which is what a stable sort needs. -/
def insertOrdered {α : Type} (le : α → α → Bool) (x : α) : List α → List α
  | [] => [x]
  | y :: ys => if le x y then x :: y :: ys else y :: insertOrdered le x ys

/-- Stable sort by a total boolean preorder; Python sorted is stable, and a
stable sort by a total preorder is unique, so this computes the same list. -/
def stableSort {α : Type} (le : α → α → Bool) : List α → List α
  | [] => []
  | x :: xs => insertOrdered le x (stableSort le xs)

/-- sort_patients: the Literal annotations admit exactly height, weight and
bmi as fields and asc, desc as directions (anything else is rejected before
the handler runs), then a stable sort by the key, reversed direction for
desc. -/
def sort_patients (sort_by order : String) (patients : List RawRecord) :
    Except ApiErr (List RawRecord) :=
  if sort_by ∈ (["height", "weight", "bmi"] : List String) then
    if order ∈ (["asc", "desc"] : List String) then
      .ok (stableSort
        (if order = "desc" then leDesc (sort_key sort_by) else leAsc (sort_key sort_by))
        patients)
    else .error .invalidArgument
  else .error .invalidArgument

theorem insertOrdered_perm {α : Type} (le : α → α → Bool) (x : α) (l : List α) :
    List.Perm (insertOrdered le x l) (x :: l) := by
  induction l with
  | nil => simp [insertOrdered]
  | cons y ys ih =>
    by_cases h : le x y = true
    · simp [insertOrdered, h]
    · rw [insertOrdered, if_neg h]
      exact List.Perm.trans (ih.cons y) (List.Perm.swap x y ys)

theorem stableSort_perm {α : Type} (le : α → α → Bool) (l : List α) :
    List.Perm (stableSort le l) l := by
  induction l with
  | nil => simp [stableSort]
  | cons x xs ih =>
    exact List.Perm.trans (insertOrdered_perm le x (stableSort le xs)) (ih.cons x)

theorem pairwise_insertOrdered {α : Type} {le : α → α → Bool}
    (htot : ∀ a b, le a b = true ∨ le b a = true)
    (htrans : ∀ a b c, le a b = true → le b c = true → le a c = true)
    (x : α) {l : List α}
    (hl : l.Pairwise (fun a b => le a b = true)) :
    (insertOrdered le x l).Pairwise (fun a b => le a b = true) := by
  induction l with
  | nil => simp [insertOrdered]
  | cons y ys ih =>
    rcases List.pairwise_cons.mp hl with ⟨hy, hys⟩
    by_cases h : le x y = true
    · rw [insertOrdered, if_pos h]
      refine List.pairwise_cons.mpr ⟨?_, hl⟩
      intro z hz
      rcases List.mem_cons.mp hz with hz | hz
      · subst hz; exact h
      · exact htrans x y z h (hy z hz)
    · rw [insertOrdered, if_neg h]
      refine List.pairwise_cons.mpr ⟨?_, ih hys⟩
      intro z hz
      rcases List.mem_cons.mp ((insertOrdered_perm le x ys).mem_iff.mp hz) with hz' | hz'
      · rw [hz']
        exact (htot x y).resolve_left h
      · exact hy z hz'

theorem pairwise_stableSort {α : Type} {le : α → α → Bool}
    (htot : ∀ a b, le a b = true ∨ le b a = true)
    (htrans : ∀ a b c, le a b = true → le b c = true → le a c = true)
    (l : List α) :
    (stableSort le l).Pairwise (fun a b => le a b = true) := by
  induction l with
  | nil => simp [stableSort]
  | cons x xs ih => exact pairwise_insertOrdered htot htrans x ih

theorem filter_insertOrdered {α : Type} {le : α → α → Bool} {p : α → Bool}
    (hskip : ∀ a b, le a b = false → p a = true → p b = false)
    (x : α) (l : List α) :
    (insertOrdered le x l).filter p =
      if p x then x :: l.filter p else l.filter p := by
  induction l with
  | nil => cases hx : p x <;> simp [insertOrdered, List.filter_cons, hx]
  | cons y ys ih =>
    by_cases h : le x y = true
    · cases hx : p x <;>
        simp [insertOrdered, h, List.filter_cons, hx]
    · have h' : le x y = false := by simpa using h
      rw [insertOrdered, if_neg h]
      cases hx : p x with
      | true =>
        have hy : p y = false := hskip x y h' hx
        simp [List.filter_cons, hx, hy, ih]
      | false =>
        simp [List.filter_cons, hx, ih]

theorem filter_stableSort {α : Type} {le : α → α → Bool} {p : α → Bool}
    (hskip : ∀ a b, le a b = false → p a = true → p b = false)
    (l : List α) :
    (stableSort le l).filter p = l.filter p := by
  induction l with
  | nil => simp [stableSort]
  | cons x xs ih =>
    by_cases hx : p x = true <;>
      simp [stableSort, filter_insertOrdered hskip, List.filter_cons, hx, ih]

/-! Helper lemmas shared by the claim theorems. -/

theorem verdictOf_ladder (b : ℚ) :
    (b < 18.5 → verdictOf b = "Underweight") ∧
    (18.5 ≤ b → b < 25 → verdictOf b = "Normal") ∧
    (25 ≤ b → b < 30 → verdictOf b = "Overweight") ∧
    (30 ≤ b → verdictOf b = "Obese") := by
  refine ⟨fun h1 => ?_, fun h1 h2 => ?_, fun h1 h2 => ?_, fun h1 => ?_⟩
  · rw [verdictOf, if_pos h1]
  · rw [verdictOf, if_neg (by linarith), if_pos h2]
  · rw [verdictOf, if_neg (by linarith), if_neg (by linarith), if_pos h2]
  · rw [verdictOf, if_neg (by linarith), if_neg (by linarith), if_neg (by linarith)]

theorem create_patient_ok {p : PatientFields} {cands : List String}
    {data : RecordSet} {i : String} {r : StoredRecord} {d₁ : RecordSet}
    (hok : create_patient p cands data = some (.ok (i, r, d₁))) :
    validCreate p ∧ r = mkStored p (some i) ∧
    d₁ = data.store i (mkStored p (some i)) ∧ data.lookup i = none := by
  by_cases hv : validCreate p
  · rw [create_patient, if_pos hv] at hok
    cases hfind : cands.find? (fun c => (data.lookup c).isNone) with
    | none => rw [hfind] at hok; exact absurd hok (by simp)
    | some j =>
      rw [hfind] at hok
      have hj : (data.lookup j).isNone = true :=
        List.find?_some (p := fun c => (data.lookup c).isNone) hfind
      have hij : j = i ∧ mkStored p (some j) = r ∧ data.store j (mkStored p (some j)) = d₁ := by
        simpa [Prod.ext_iff] using hok
      rcases hij with ⟨hi, hr, hd⟩
      subst hi
      exact ⟨hv, hr.symm, hd.symm, Option.isNone_iff_eq_none.mp hj⟩
  · rw [create_patient, if_neg hv] at hok
    exact absurd hok (by simp)

/-- Example input of the spec: height 1.72 m, weight 68.5 kg. -/
def pEx1 : PatientFields :=
  { name := "Aarav Sharma", city := "Delhi", age := 28, gender := "male",
    height := 1.72, weight := 68.5 }

/-- Example input of the spec: height 1.6 m, weight 80 kg. -/
def pEx2 : PatientFields :=
  { name := "Aarav Sharma", city := "Delhi", age := 28, gender := "male",
    height := 1.6, weight := 80 }

/-- Example input of the spec: height 1.7 m, weight 85 kg. -/
def pEx3 : PatientFields :=
  { name := "Aarav Sharma", city := "Delhi", age := 28, gender := "male",
    height := 1.7, weight := 85 }

theorem validCreate_pEx1 : validCreate pEx1 :=
  ⟨by decide, by decide, by decide, by decide, by decide,
   by norm_num [pEx1], by norm_num [pEx1], by norm_num [pEx1], by norm_num [pEx1]⟩

theorem validCreate_pEx2 : validCreate pEx2 :=
  ⟨by decide, by decide, by decide, by decide, by decide,
   by norm_num [pEx2], by norm_num [pEx2], by norm_num [pEx2], by norm_num [pEx2]⟩

theorem validCreate_pEx3 : validCreate pEx3 :=
  ⟨by decide, by decide, by decide, by decide, by decide,
   by norm_num [pEx3], by norm_num [pEx3], by norm_num [pEx3], by norm_num [pEx3]⟩

theorem bmiVal_pEx1 : bmiVal pEx1.height pEx1.weight = 23.15 := by
  norm_num [pEx1, bmiVal, round2, roundHalfEven]

theorem bmiVal_pEx2 : bmiVal pEx2.height pEx2.weight = 31.25 := by
  norm_num [pEx2, bmiVal, round2, roundHalfEven]

theorem bmiVal_pEx3 : bmiVal pEx3.height pEx3.weight = 29.41 := by
  norm_num [pEx3, bmiVal, round2, roundHalfEven]

theorem create_pEx1_eval :
    create_patient pEx1 ["A1B2C3D4"] ∅ =
      some (.ok ("A1B2C3D4", mkStored pEx1 (some "A1B2C3D4"),
        (∅ : RecordSet).store "A1B2C3D4" (mkStored pEx1 (some "A1B2C3D4")))) := by
  rw [create_patient, if_pos validCreate_pEx1]
  simp [List.find?, RecordSet.lookup_empty]

/-- C1 (corrected): the record returned by an accepted create carries
bmi = round(weight / height ** 2, 2) and a verdict following the spec's
threshold ladder; the concrete spec examples evaluate to bmi 23.15 (Normal)
for height 1.72 / weight 68.5 — not 23.16 as the claim says — 31.25 (Obese)
for 1.6 / 80 and 29.41 (Overweight) for 1.7 / 85. -/
theorem create_bmi_and_verdict_ladder (p : PatientFields) (cands : List String)
    (data : RecordSet) (i : String) (r : StoredRecord) (d₁ : RecordSet)
    (hok : create_patient p cands data = some (.ok (i, r, d₁))) :
    (r.bmi = round2 (p.weight / p.height ^ 2) ∧
      (r.bmi < 18.5 → r.verdict = "Underweight") ∧
      (18.5 ≤ r.bmi → r.bmi < 25 → r.verdict = "Normal") ∧
      (25 ≤ r.bmi → r.bmi < 30 → r.verdict = "Overweight") ∧
      (30 ≤ r.bmi → r.verdict = "Obese")) ∧
    ((mkStored pEx1 (some "A1B2C3D4")).bmi = 23.15 ∧
      (mkStored pEx1 (some "A1B2C3D4")).verdict = "Normal") ∧
    ((mkStored pEx2 (some "A1B2C3D4")).bmi = 31.25 ∧
      (mkStored pEx2 (some "A1B2C3D4")).verdict = "Obese") ∧
    ((mkStored pEx3 (some "A1B2C3D4")).bmi = 29.41 ∧
      (mkStored pEx3 (some "A1B2C3D4")).verdict = "Overweight") := by
  obtain ⟨hv, hr, hd, hfresh⟩ := create_patient_ok hok
  subst hr
  refine ⟨⟨rfl, ?_⟩, ⟨?_, ?_⟩, ⟨?_, ?_⟩, ⟨?_, ?_⟩⟩
  · show (bmiVal p.height p.weight < 18.5 → verdictOf (bmiVal p.height p.weight) = _) ∧ _
    exact verdictOf_ladder (bmiVal p.height p.weight)
  · exact bmiVal_pEx1
  · show verdictOf (bmiVal pEx1.height pEx1.weight) = "Normal"
    rw [bmiVal_pEx1]; norm_num [verdictOf]
  · exact bmiVal_pEx2
  · show verdictOf (bmiVal pEx2.height pEx2.weight) = "Obese"
    rw [bmiVal_pEx2]; norm_num [verdictOf]
  · exact bmiVal_pEx3
  · show verdictOf (bmiVal pEx3.height pEx3.weight) = "Overweight"
    rw [bmiVal_pEx3]; norm_num [verdictOf]

/-- C1 witness: the amended theorem applied to the concrete first example. -/
theorem create_bmi_and_verdict_ladder_witness :
    ((mkStored pEx1 (some "A1B2C3D4")).bmi =
        round2 (pEx1.weight / pEx1.height ^ 2) ∧
      ((mkStored pEx1 (some "A1B2C3D4")).bmi < 18.5 →
        (mkStored pEx1 (some "A1B2C3D4")).verdict = "Underweight") ∧
      (18.5 ≤ (mkStored pEx1 (some "A1B2C3D4")).bmi →
        (mkStored pEx1 (some "A1B2C3D4")).bmi < 25 →
        (mkStored pEx1 (some "A1B2C3D4")).verdict = "Normal") ∧
      (25 ≤ (mkStored pEx1 (some "A1B2C3D4")).bmi →
        (mkStored pEx1 (some "A1B2C3D4")).bmi < 30 →
        (mkStored pEx1 (some "A1B2C3D4")).verdict = "Overweight") ∧
      (30 ≤ (mkStored pEx1 (some "A1B2C3D4")).bmi →
        (mkStored pEx1 (some "A1B2C3D4")).verdict = "Obese")) ∧
    ((mkStored pEx1 (some "A1B2C3D4")).bmi = 23.15 ∧
      (mkStored pEx1 (some "A1B2C3D4")).verdict = "Normal") ∧
    ((mkStored pEx2 (some "A1B2C3D4")).bmi = 31.25 ∧
      (mkStored pEx2 (some "A1B2C3D4")).verdict = "Obese") ∧
    ((mkStored pEx3 (some "A1B2C3D4")).bmi = 29.41 ∧
      (mkStored pEx3 (some "A1B2C3D4")).verdict = "Overweight") :=
  create_bmi_and_verdict_ladder pEx1 ["A1B2C3D4"] ∅ "A1B2C3D4"
    (mkStored pEx1 (some "A1B2C3D4"))
    ((∅ : RecordSet).store "A1B2C3D4" (mkStored pEx1 (some "A1B2C3D4")))
    create_pEx1_eval

/-- C1 counterexample: the claim's first example is off by one hundredth:
create on height 1.72, weight 68.5 returns bmi 23.15, not 23.16. -/
theorem create_example_bmi_not_2316 :
    create_patient pEx1 ["A1B2C3D4"] ∅ =
      some (.ok ("A1B2C3D4", mkStored pEx1 (some "A1B2C3D4"),
        (∅ : RecordSet).store "A1B2C3D4" (mkStored pEx1 (some "A1B2C3D4")))) ∧
    (mkStored pEx1 (some "A1B2C3D4")).bmi = 23.15 ∧
    ¬ (mkStored pEx1 (some "A1B2C3D4")).bmi = 23.16 := by
  refine ⟨create_pEx1_eval, bmiVal_pEx1, ?_⟩
  show ¬ bmiVal pEx1.height pEx1.weight = 23.16
  rw [bmiVal_pEx1]
  norm_num

theorem createMany_nodup_and_fresh (ops : List (PatientFields × List String))
    (d : RecordSet) :
    (createMany ops d).1.Nodup ∧ ∀ i ∈ (createMany ops d).1, d.lookup i = none := by
  induction ops generalizing d with
  | nil => simp [createMany]
  | cons op rest ih =>
    obtain ⟨p, cs⟩ := op
    simp only [createMany]
    cases hc : create_patient p cs d with
    | none => exact ih d
    | some exc =>
      cases exc with
      | error e => exact ih d
      | ok t =>
        obtain ⟨i, r, d₁⟩ := t
        obtain ⟨-, -, hd, hfresh⟩ := create_patient_ok hc
        obtain ⟨hnd, hfr⟩ := ih d₁
        have hlook : d₁.lookup i = some (mkStored p (some i)) := by
          rw [hd]; exact RecordSet.lookup_store_self ..
        have hi : i ∉ (createMany rest d₁).1 := by
          intro hmem
          rw [hfr i hmem] at hlook
          exact Option.noConfusion hlook
        refine ⟨List.nodup_cons.mpr ⟨hi, hnd⟩, ?_⟩
        intro j hj
        rcases List.mem_cons.mp hj with hj | hj
        · rw [hj]; exact hfresh
        · have hji : j ≠ i := by
            intro h
            rw [h] at hj
            exact hi hj
          have := hfr j hj
          rwa [hd, RecordSet.lookup_store_ne d (mkStored p (some i)) hji] at this

/-- C2: a successful create allocates an id absent from the loaded record
set (it keeps drawing candidates until one is fresh), and over any sequence
of creates the allocated ids are pairwise distinct and all absent from the
initial record set; key uniqueness of the record set itself is invariant by
construction of the dictionary. -/
theorem create_ids_pairwise_distinct (ops : List (PatientFields × List String))
    (d : RecordSet) :
    (∀ p cs i r d₁, create_patient p cs d = some (.ok (i, r, d₁)) →
      d.lookup i = none) ∧
    (createMany ops d).1.Nodup ∧
    (∀ i ∈ (createMany ops d).1, d.lookup i = none) := by
  obtain ⟨hnd, hfr⟩ := createMany_nodup_and_fresh ops d
  exact ⟨fun p cs i r d₁ hok => (create_patient_ok hok).2.2.2, hnd, hfr⟩

/-- Concrete two-create scenario: the second draw collides with the first
allocated id and is re-drawn. -/
def cMops : List (PatientFields × List String) :=
  [(pEx1, ["A1B2C3D4"]), (pEx2, ["A1B2C3D4", "B2C3D4E5"])]

/-- C2 witness: two sequential creates on the empty store, where the second
first draws the already-taken id, yield distinct fresh ids. -/
theorem create_ids_pairwise_distinct_witness :
    (createMany cMops ∅).1 = ["A1B2C3D4", "B2C3D4E5"] ∧
    (createMany cMops ∅).1.Nodup ∧
    (∅ : RecordSet).lookup "A1B2C3D4" = none := by
  have h := create_ids_pairwise_distinct cMops ∅
  have h2 : create_patient pEx2 ["A1B2C3D4", "B2C3D4E5"]
      ((∅ : RecordSet).store "A1B2C3D4" (mkStored pEx1 (some "A1B2C3D4"))) =
      some (.ok ("B2C3D4E5", mkStored pEx2 (some "B2C3D4E5"),
        ((∅ : RecordSet).store "A1B2C3D4" (mkStored pEx1 (some "A1B2C3D4"))).store
          "B2C3D4E5" (mkStored pEx2 (some "B2C3D4E5")))) := by
    rw [create_patient, if_pos validCreate_pEx2]
    simp [List.find?, RecordSet.lookup_store_self,
      RecordSet.lookup_store_ne _ _ (show "B2C3D4E5" ≠ "A1B2C3D4" by decide),
      RecordSet.lookup_empty]
  refine ⟨?_, h.2.1, h.1 pEx1 ["A1B2C3D4"] "A1B2C3D4" _ _ create_pEx1_eval⟩
  simp only [cMops, createMany, create_pEx1_eval, h2]

theorem update_patient_eq_ok {pid : String} {u : PatientUpdate} {data : RecordSet}
    {ex : StoredRecord} {j : String}
    (hval : validUpdatePayload u) (hex : data.lookup pid = some ex)
    (hid : ex.id = some j) (hcand : validCreate (overlay ex u)) :
    update_patient pid u data =
      .ok (pid, data.store pid (mkStored (overlay ex u) none)) := by
  rw [update_patient.eq_def, if_pos hval, hex]
  simp only [hid]
  rw [if_pos hcand]

theorem update_patient_invalid_cand {pid : String} {u : PatientUpdate}
    {data : RecordSet} {ex : StoredRecord} {j : String}
    (hval : validUpdatePayload u) (hex : data.lookup pid = some ex)
    (hid : ex.id = some j) (hcand : ¬ validCreate (overlay ex u)) :
    update_patient pid u data = .error .validation := by
  rw [update_patient.eq_def, if_pos hval, hex]
  simp only [hid]
  rw [if_neg hcand]

theorem update_patient_no_id {pid : String} {u : PatientUpdate}
    {data : RecordSet} {ex : StoredRecord}
    (hval : validUpdatePayload u) (hex : data.lookup pid = some ex)
    (hid : ex.id = none) :
    update_patient pid u data = .error .validation := by
  rw [update_patient.eq_def, if_pos hval, hex]
  simp only [hid]

theorem update_patient_not_found {pid : String} {u : PatientUpdate}
    {data : RecordSet}
    (hval : validUpdatePayload u) (hex : data.lookup pid = none) :
    update_patient pid u data = .error .notFound := by
  rw [update_patient.eq_def, if_pos hval, hex]

theorem update_patient_bad_payload {pid : String} {u : PatientUpdate}
    {data : RecordSet} (hval : ¬ validUpdatePayload u) :
    update_patient pid u data = .error .validation := by
  rw [update_patient.eq_def, if_neg hval]

theorem fieldsOf_mkStored (p : PatientFields) (i : Option String) :
    fieldsOf (mkStored p i) = p := rfl

/-- The record stored for pEx1 by create under id A1B2C3D4. -/
def exRec1 : StoredRecord := mkStored pEx1 (some "A1B2C3D4")

/-- A one-record store as left by create. -/
def d₀ : RecordSet := (∅ : RecordSet).store "A1B2C3D4" exRec1

/-- Partial payload setting only the weight, to 70 kg. -/
def uWeight : PatientUpdate :=
  { name := none, city := none, age := none, gender := none,
    height := none, weight := some 70 }

/-- Partial payload setting only the age, to 30. -/
def uAge : PatientUpdate :=
  { name := none, city := none, age := some 30, gender := none,
    height := none, weight := none }

theorem validUpdatePayload_uWeight : validUpdatePayload uWeight :=
  ⟨trivial, trivial, trivial, by show (10.0:ℚ) < 70 ∧ (70:ℚ) ≤ 300.0; norm_num⟩

theorem validUpdatePayload_uAge : validUpdatePayload uAge :=
  ⟨by show (1:ℤ) ≤ 30 ∧ (30:ℤ) ≤ 120; decide, trivial, trivial, trivial⟩

/-- The candidate record of the uWeight update of exRec1. -/
def cand₁ : PatientFields := overlay exRec1 uWeight

theorem validCreate_cand₁ : validCreate cand₁ :=
  ⟨by decide, by decide, by decide, by decide, by decide,
   by show (0.4:ℚ) < 1.72; norm_num, by show (1.72:ℚ) ≤ 2.5; norm_num,
   by show (10.0:ℚ) < 70; norm_num, by show (70:ℚ) ≤ 300.0; norm_num⟩

/-- C3 (code bug evidence): a successful update of a create-produced record
persists the rebuilt record with model_dump(exclude id), so the stored
record no longer carries an "id" entry, and the handler returns only the
message payload with the id, not the record. -/
theorem update_drops_stored_id :
    update_patient "A1B2C3D4" uWeight d₀ =
      .ok ("A1B2C3D4", d₀.store "A1B2C3D4" (mkStored cand₁ none)) ∧
    (d₀.store "A1B2C3D4" (mkStored cand₁ none)).lookup "A1B2C3D4" =
      some (mkStored cand₁ none) ∧
    (mkStored cand₁ none).id = none := by
  refine ⟨?_, RecordSet.lookup_store_self .., rfl⟩
  exact update_patient_eq_ok validUpdatePayload_uWeight
    (RecordSet.lookup_store_self ..) rfl validCreate_cand₁

/-- A store holding the record exactly as a previous update persisted it:
without its "id" entry. -/
def dNoId : RecordSet := (∅ : RecordSet).store "A1B2C3D4" (mkStored cand₁ none)

/-- C4 counterexample: an existing stored record that a previous update
stripped of its "id" entry, together with a fully in-bounds partial
payload: the candidate satisfies every create bound, yet update rejects it
with a validation error, so update does not re-validate against the create
bounds alone for every existing record. -/
theorem update_fails_on_idless_record :
    validCreate (overlay (mkStored cand₁ none) uAge) ∧
    update_patient "A1B2C3D4" uAge dNoId = .error .validation := by
  refine ⟨?_, update_patient_no_id validUpdatePayload_uAge
    (RecordSet.lookup_store_self ..) rfl⟩
  exact ⟨by decide, by decide, by decide, by decide, by decide,
    by show (0.4:ℚ) < 1.72; norm_num, by show (1.72:ℚ) ≤ 2.5; norm_num,
    by show (10.0:ℚ) < 70; norm_num, by show (70:ℚ) ≤ 300.0; norm_num⟩

/-- C4 (corrected): for every stored record that still carries its id and
every valid partial payload, update overlays the supplied fields onto the
record, re-validates the whole candidate against the create bounds, leaves
unset fields unchanged, recomputes bmi and verdict from the candidate's
height and weight, and persists only records satisfying the create
bounds. -/
theorem update_overlay_frame (pid : String) (u : PatientUpdate)
    (data : RecordSet) (ex : StoredRecord) (j : String)
    (hval : validUpdatePayload u) (hex : data.lookup pid = some ex)
    (hid : ex.id = some j) :
    (validCreate (overlay ex u) →
      update_patient pid u data =
        .ok (pid, data.store pid (mkStored (overlay ex u) none)) ∧
      (data.store pid (mkStored (overlay ex u) none)).lookup pid =
        some (mkStored (overlay ex u) none) ∧
      validCreate (fieldsOf (mkStored (overlay ex u) none))) ∧
    (¬ validCreate (overlay ex u) →
      update_patient pid u data = .error .validation) ∧
    (u.name = none → (overlay ex u).name = ex.name) ∧
    (u.city = none → (overlay ex u).city = ex.city) ∧
    (u.age = none → (overlay ex u).age = ex.age) ∧
    (u.gender = none → (overlay ex u).gender = ex.gender) ∧
    (u.height = none → (overlay ex u).height = ex.height) ∧
    (u.weight = none → (overlay ex u).weight = ex.weight) ∧
    (∀ v, u.name = some v → (overlay ex u).name = v) ∧
    (∀ v, u.city = some v → (overlay ex u).city = v) ∧
    (∀ v, u.age = some v → (overlay ex u).age = v) ∧
    (∀ v, u.gender = some v → (overlay ex u).gender = v) ∧
    (∀ v, u.height = some v → (overlay ex u).height = v) ∧
    (∀ v, u.weight = some v → (overlay ex u).weight = v) ∧
    (mkStored (overlay ex u) none).bmi =
      bmiVal (overlay ex u).height (overlay ex u).weight ∧
    (mkStored (overlay ex u) none).verdict =
      verdictOf (bmiVal (overlay ex u).height (overlay ex u).weight) := by
  refine ⟨fun hcand => ⟨update_patient_eq_ok hval hex hid hcand,
      RecordSet.lookup_store_self .., by rw [fieldsOf_mkStored]; exact hcand⟩,
    fun hcand => update_patient_invalid_cand hval hex hid hcand,
    ?_, ?_, ?_, ?_, ?_, ?_, ?_, ?_, ?_, ?_, ?_, ?_, rfl, rfl⟩ <;>
  · first
    | (intro h; simp [overlay, h])
    | (intro v h; simp [overlay, h])

/-- C4 witness: the amended theorem applied to the concrete one-record
store d₀ and the weight-only payload. -/
theorem update_overlay_frame_witness :
    update_patient "A1B2C3D4" uWeight d₀ =
      .ok ("A1B2C3D4", d₀.store "A1B2C3D4" (mkStored cand₁ none)) ∧
    cand₁.name = exRec1.name ∧
    cand₁.height = exRec1.height ∧
    cand₁.weight = 70 ∧
    (mkStored cand₁ none).bmi = bmiVal cand₁.height cand₁.weight ∧
    (mkStored cand₁ none).verdict = verdictOf (bmiVal cand₁.height cand₁.weight) := by
  have h := update_overlay_frame "A1B2C3D4" uWeight d₀ exRec1 "A1B2C3D4"
    validUpdatePayload_uWeight (RecordSet.lookup_store_self ..) rfl
  exact ⟨(h.1 validCreate_cand₁).1, h.2.2.1 rfl, h.2.2.2.2.2.2.1 rfl,
    h.2.2.2.2.2.2.2.2.2.2.2.2.2.1 70 rfl,
    h.2.2.2.2.2.2.2.2.2.2.2.2.2.2.1, h.2.2.2.2.2.2.2.2.2.2.2.2.2.2.2⟩

theorem update_patient_ok_inv {pid : String} {u : PatientUpdate}
    {data : RecordSet} {s : String} {d₁ : RecordSet}
    (h : update_patient pid u data = .ok (s, d₁)) :
    validUpdatePayload u ∧ s = pid ∧
    ∃ ex j, data.lookup pid = some ex ∧ ex.id = some j ∧
      validCreate (overlay ex u) ∧
      d₁ = data.store pid (mkStored (overlay ex u) none) := by
  rw [update_patient.eq_def] at h
  split at h
  · rename_i hval
    split at h
    · exact absurd h (by simp)
    · rename_i ex hex
      split at h
      · exact absurd h (by simp)
      · rename_i j hid
        split at h
        · rename_i hcand
          have h2 : pid = s ∧ data.store pid (mkStored (overlay ex u) none) = d₁ := by
            simpa [Prod.ext_iff] using h
          exact ⟨hval, h2.1.symm, ex, j, hex, hid, hcand, h2.2.symm⟩
        · exact absurd h (by simp)
  · exact absurd h (by simp)

/-- A create input whose name is a single character. -/
def pShort : PatientFields :=
  { name := "A", city := "Delhi", age := 28, gender := "male",
    height := 1.72, weight := 68.5 }

/-- A create input whose name is 101 characters long. -/
def pLong : PatientFields :=
  { name := String.mk (List.replicate 101 'a'), city := "Delhi", age := 28,
    gender := "male", height := 1.72, weight := 68.5 }

theorem validCreate_pLong : validCreate pLong :=
  ⟨by decide, by decide, by decide, by decide, by decide,
   by show (0.4:ℚ) < 1.72; norm_num, by show (1.72:ℚ) ≤ 2.5; norm_num,
   by show (10.0:ℚ) < 68.5; norm_num, by show (68.5:ℚ) ≤ 300.0; norm_num⟩

/-- C5 counterexample: the claim says a name longer than 100 characters is
rejected with ValidationError, but the model declares only min_length=2,
so create accepts a 101-character name. -/
theorem create_accepts_101_char_name :
    pLong.name.length = 101 ∧
    create_patient pLong ["A1B2C3D4"] ∅ =
      some (.ok ("A1B2C3D4", mkStored pLong (some "A1B2C3D4"),
        (∅ : RecordSet).store "A1B2C3D4" (mkStored pLong (some "A1B2C3D4")))) := by
  refine ⟨by decide, ?_⟩
  rw [create_patient, if_pos validCreate_pLong]
  simp [List.find?, RecordSet.lookup_empty]

/-- C5 (corrected): name and city must be at least 2 characters long — any
shorter create input fails with ValidationError and every record accepted
by create or by update satisfies the minimum — but no maximum length is
enforced. -/
theorem name_city_min_length_two (p : PatientFields) (cands : List String)
    (data : RecordSet) (pid : String) :
    (validCreate p → 2 ≤ p.name.length ∧ 2 ≤ p.city.length) ∧
    (p.name.length < 2 ∨ p.city.length < 2 →
      create_patient p cands data = some (.error .validation)) ∧
    (∀ u s d₁, update_patient pid u data = .ok (s, d₁) →
      ∃ r, d₁.lookup pid = some r ∧ 2 ≤ r.name.length ∧ 2 ≤ r.city.length) := by
  refine ⟨fun hv => ⟨hv.1, hv.2.1⟩, fun hbad => ?_, fun u s d₁ h => ?_⟩
  · have hnv : ¬ validCreate p := by
      rintro ⟨h1, h2, -⟩
      rcases hbad with hb | hb <;> omega
    rw [create_patient, if_neg hnv]
  · obtain ⟨-, -, ex, j, -, -, hcand, hd⟩ := update_patient_ok_inv h
    refine ⟨mkStored (overlay ex u) none, ?_, hcand.1, hcand.2.1⟩
    rw [hd]
    exact RecordSet.lookup_store_self ..

/-- C5 witness: the amended theorem at a valid input, a 1-character name,
and a concrete successful update. -/
theorem name_city_min_length_two_witness :
    (2 ≤ pEx1.name.length ∧ 2 ≤ pEx1.city.length) ∧
    create_patient pShort ["A1B2C3D4"] ∅ = some (.error .validation) ∧
    (∃ r, (d₀.store "A1B2C3D4" (mkStored cand₁ none)).lookup "A1B2C3D4" = some r ∧
      2 ≤ r.name.length ∧ 2 ≤ r.city.length) := by
  have h1 := name_city_min_length_two pEx1 ["A1B2C3D4"] (∅ : RecordSet) "A1B2C3D4"
  have h2 := name_city_min_length_two pShort ["A1B2C3D4"] (∅ : RecordSet) "A1B2C3D4"
  have h3 := name_city_min_length_two pEx1 ["A1B2C3D4"] d₀ "A1B2C3D4"
  refine ⟨h1.1 validCreate_pEx1, h2.2.1 (Or.inl (by decide)), ?_⟩
  exact h3.2.2 uWeight "A1B2C3D4" _ (update_patient_eq_ok validUpdatePayload_uWeight
    (RecordSet.lookup_store_self ..) rfl validCreate_cand₁)

/-- Every record in the store satisfies all create field bounds. -/
def StoreOK (data : RecordSet) : Prop :=
  ∀ pid r, data.lookup pid = some r → validCreate (fieldsOf r)

theorem RecordSet.lookup_store_cases {data : RecordSet} {i pid : String}
    {rec r : StoredRecord} (h : (data.store i rec).lookup pid = some r) :
    (pid = i ∧ r = rec) ∨ (pid ≠ i ∧ data.lookup pid = some r) := by
  by_cases hpi : pid = i
  · subst hpi
    rw [RecordSet.lookup_store_self] at h
    exact Or.inl ⟨rfl, (Option.some.injEq .. ▸ h).symm⟩
  · rw [RecordSet.lookup_store_ne data rec hpi] at h
    exact Or.inr ⟨hpi, h⟩

theorem StoreOK_store {data : RecordSet} {i : String} {rec : StoredRecord}
    (h : StoreOK data) (hrec : validCreate (fieldsOf rec)) :
    StoreOK (data.store i rec) := by
  intro pid r hr
  rcases RecordSet.lookup_store_cases hr with ⟨-, hre⟩ | ⟨-, hre⟩
  · rw [hre]; exact hrec
  · exact h pid r hre

theorem StoreOK_remove {data : RecordSet} {i : String} (h : StoreOK data) :
    StoreOK (data.remove i) := by
  intro pid r hr
  by_cases hpi : pid = i
  · subst hpi
    rw [RecordSet.lookup_remove_self] at hr
    exact Option.noConfusion hr
  · rw [RecordSet.lookup_remove_ne data hpi] at hr
    exact h pid r hr

theorem StoreOK_empty : StoreOK (∅ : RecordSet) := by
  intro pid r hr
  rw [RecordSet.lookup_empty] at hr
  exact Option.noConfusion hr

theorem StoreOK_persistAfterCreate {p : PatientFields} {cands : List String}
    {data : RecordSet} (h : StoreOK data) :
    StoreOK (persistAfterCreate p cands data) := by
  rw [persistAfterCreate.eq_def]
  cases hc : create_patient p cands data with
  | none => exact h
  | some exc =>
    cases exc with
    | error e => exact h
    | ok t =>
      obtain ⟨i, r, d₁⟩ := t
      obtain ⟨hv, -, hd, -⟩ := create_patient_ok hc
      rw [hd]
      exact StoreOK_store h (by rw [fieldsOf_mkStored]; exact hv)

theorem StoreOK_persistAfterUpdate {pid : String} {u : PatientUpdate}
    {data : RecordSet} (h : StoreOK data) :
    StoreOK (persistAfterUpdate pid u data) := by
  rw [persistAfterUpdate.eq_def]
  cases hc : update_patient pid u data with
  | error e => exact h
  | ok t =>
    obtain ⟨s, d₁⟩ := t
    obtain ⟨-, -, ex, j, -, -, hcand, hd⟩ := update_patient_ok_inv hc
    rw [hd]
    exact StoreOK_store h (by rw [fieldsOf_mkStored]; exact hcand)

theorem StoreOK_persistAfterDelete {pid : String} {data : RecordSet}
    (h : StoreOK data) : StoreOK (persistAfterDelete pid data) := by
  rw [persistAfterDelete.eq_def]
  cases hc : delete_patient pid data with
  | error e => exact h
  | ok d₁ =>
    rw [delete_patient.eq_def] at hc
    split at hc
    · exact absurd hc (by simp)
    · have hd : data.remove pid = d₁ := by simpa using hc
      rw [← hd]
      exact StoreOK_remove h

/-- C6: a create or update rejected with a validation error leaves the
persisted record set unchanged, and every operation preserves the invariant
that each stored record satisfies all create field bounds. -/
theorem rejected_calls_leave_store_unchanged (p : PatientFields)
    (cands : List String) (data : RecordSet) (pid : String) (u : PatientUpdate) :
    (create_patient p cands data = some (.error .validation) →
      persistAfterCreate p cands data = data) ∧
    (∀ e, update_patient pid u data = .error e →
      persistAfterUpdate pid u data = data) ∧
    (StoreOK data →
      StoreOK (persistAfterCreate p cands data) ∧
      StoreOK (persistAfterUpdate pid u data) ∧
      StoreOK (persistAfterDelete pid data)) := by
  refine ⟨fun hc => ?_, fun e hu => ?_, fun hok =>
    ⟨StoreOK_persistAfterCreate hok, StoreOK_persistAfterUpdate hok,
     StoreOK_persistAfterDelete hok⟩⟩
  · rw [persistAfterCreate.eq_def, hc]
  · rw [persistAfterUpdate.eq_def, hu]

/-- A create input violating the age bound: age 0. -/
def pBadAge : PatientFields :=
  { name := "Aarav Sharma", city := "Delhi", age := 0, gender := "male",
    height := 1.72, weight := 68.5 }

/-- A partial payload violating the height bound: height 3.0. -/
def uBadHeight : PatientUpdate :=
  { name := none, city := none, age := none, gender := none,
    height := some 3.0, weight := none }

/-- C6 witness: a create with age 0 and an update with height 3.0 are both
rejected and leave the persisted store unchanged; the bounds invariant is
preserved from the empty store. -/
theorem rejected_calls_leave_store_unchanged_witness :
    persistAfterCreate pBadAge ["A1B2C3D4"] ∅ = (∅ : RecordSet) ∧
    persistAfterUpdate "A1B2C3D4" uBadHeight d₀ = d₀ ∧
    StoreOK (persistAfterDelete "A1B2C3D4" (∅ : RecordSet)) := by
  have h1 := rejected_calls_leave_store_unchanged pBadAge ["A1B2C3D4"]
    (∅ : RecordSet) "A1B2C3D4" uBadHeight
  have h2 := rejected_calls_leave_store_unchanged pBadAge ["A1B2C3D4"] d₀
    "A1B2C3D4" uBadHeight
  have hnv : ¬ validCreate pBadAge := by
    rintro ⟨-, -, h3, -⟩
    exact absurd h3 (by decide)
  have hnu : ¬ validUpdatePayload uBadHeight := by
    rintro ⟨-, -, h3, -⟩
    have h4 : (0.4:ℚ) < 3.0 ∧ (3.0:ℚ) ≤ 2.5 := h3
    exact absurd h4.2 (by norm_num)
  refine ⟨h1.1 ?_, h2.2.1 .validation (update_patient_bad_payload hnu),
    (h1.2.2 StoreOK_empty).2.2⟩
  rw [create_patient, if_neg hnv]

theorem leAsc_total {α : Type} (f : α → ℚ) :
    ∀ a b, leAsc f a b = true ∨ leAsc f b a = true := by
  intro a b
  simp only [leAsc, decide_eq_true_eq]
  exact le_total _ _

theorem leAsc_trans {α : Type} (f : α → ℚ) :
    ∀ a b c, leAsc f a b = true → leAsc f b c = true → leAsc f a c = true := by
  intro a b c
  simp only [leAsc, decide_eq_true_eq]
  exact le_trans

theorem leAsc_skip {α : Type} (f : α → ℚ) (k : ℚ) :
    ∀ a b, leAsc f a b = false →
      decide (f a = k) = true → decide (f b = k) = false := by
  intro a b h1 h2
  simp only [leAsc, decide_eq_false_iff_not, decide_eq_true_eq] at *
  intro he
  exact h1 (le_of_eq (h2 ▸ he ▸ rfl))

theorem leDesc_total {α : Type} (f : α → ℚ) :
    ∀ a b, leDesc f a b = true ∨ leDesc f b a = true := by
  intro a b
  simp only [leDesc, decide_eq_true_eq]
  exact le_total _ _

theorem leDesc_trans {α : Type} (f : α → ℚ) :
    ∀ a b c, leDesc f a b = true → leDesc f b c = true → leDesc f a c = true := by
  intro a b c
  simp only [leDesc, decide_eq_true_eq]
  exact fun h1 h2 => le_trans h2 h1

theorem leDesc_skip {α : Type} (f : α → ℚ) (k : ℚ) :
    ∀ a b, leDesc f a b = false →
      decide (f a = k) = true → decide (f b = k) = false := by
  intro a b h1 h2
  simp only [leDesc, decide_eq_false_iff_not, decide_eq_true_eq] at *
  intro he
  exact h1 (le_of_eq (h2 ▸ he ▸ rfl))

/-- C7: sort rejects an unsupported field or direction with
InvalidArgument; for a supported field and direction it returns a
permutation of the input, ordered by the key in the requested direction,
stably (the sublist at each key value is preserved); the bmi key is
recomputed from height and weight with a 0 default for non-positive
height, and the stored-field keys default to 0 when the entry is absent. -/
theorem sort_patients_spec (sort_by order : String) (patients : List RawRecord) :
    ((sort_by ∉ (["height", "weight", "bmi"] : List String) ∨
      order ∉ (["asc", "desc"] : List String)) →
      sort_patients sort_by order patients = .error .invalidArgument) ∧
    (∀ r : RawRecord, sort_key "bmi" r =
      if 0 < r.height.getD 0 then bmiVal (r.height.getD 0) (r.weight.getD 0)
      else 0) ∧
    (∀ r : RawRecord, sort_key "height" r = r.height.getD 0) ∧
    (∀ r : RawRecord, sort_key "weight" r = r.weight.getD 0) ∧
    (sort_by ∈ (["height", "weight", "bmi"] : List String) → order = "asc" →
      sort_patients sort_by order patients =
        .ok (stableSort (leAsc (sort_key sort_by)) patients) ∧
      List.Perm (stableSort (leAsc (sort_key sort_by)) patients) patients ∧
      (stableSort (leAsc (sort_key sort_by)) patients).Pairwise
        (fun a b => sort_key sort_by a ≤ sort_key sort_by b) ∧
      (∀ k : ℚ, (stableSort (leAsc (sort_key sort_by)) patients).filter
          (fun r => decide (sort_key sort_by r = k)) =
        patients.filter (fun r => decide (sort_key sort_by r = k)))) ∧
    (sort_by ∈ (["height", "weight", "bmi"] : List String) → order = "desc" →
      sort_patients sort_by order patients =
        .ok (stableSort (leDesc (sort_key sort_by)) patients) ∧
      List.Perm (stableSort (leDesc (sort_key sort_by)) patients) patients ∧
      (stableSort (leDesc (sort_key sort_by)) patients).Pairwise
        (fun a b => sort_key sort_by b ≤ sort_key sort_by a) ∧
      (∀ k : ℚ, (stableSort (leDesc (sort_key sort_by)) patients).filter
          (fun r => decide (sort_key sort_by r = k)) =
        patients.filter (fun r => decide (sort_key sort_by r = k)))) := by
  refine ⟨fun hbad => ?_, fun r => ?_, fun r => by simp [sort_key],
    fun r => by simp [sort_key], fun hf ho => ?_, fun hf ho => ?_⟩
  · rw [sort_patients.eq_def]
    rcases hbad with hb | hb
    · rw [if_neg hb]
    · by_cases hf : sort_by ∈ (["height", "weight", "bmi"] : List String)
      · rw [if_pos hf, if_neg hb]
      · rw [if_neg hf]
  · simp [sort_key, bmiVal]
  · subst ho
    refine ⟨?_, stableSort_perm .., ?_, fun k => filter_stableSort (leAsc_skip _ k) _⟩
    · rw [sort_patients.eq_def, if_pos hf, if_pos (by decide), if_neg (by decide)]
    · exact (pairwise_stableSort (leAsc_total _) (leAsc_trans _) patients).imp
        (fun h => by simpa [leAsc, decide_eq_true_eq] using h)
  · subst ho
    refine ⟨?_, stableSort_perm .., ?_, fun k => filter_stableSort (leDesc_skip _ k) _⟩
    · rw [sort_patients.eq_def, if_pos hf, if_pos (by decide), if_pos rfl]
    · exact (pairwise_stableSort (leDesc_total _) (leDesc_trans _) patients).imp
        (fun h => by simpa [leDesc, decide_eq_true_eq] using h)

/-- Record with computed bmi key 31.25 (height 1.6, weight 80). -/
def rawA : RawRecord :=
  { id := none, name := none, city := none, age := none, gender := none,
    height := some 1.6, weight := some 80, bmi := none, verdict := none }

/-- Record with computed bmi key 31.25 (height 2.0, weight 125): ties rawA. -/
def rawB : RawRecord :=
  { id := none, name := none, city := none, age := none, gender := none,
    height := some 2.0, weight := some 125, bmi := none, verdict := none }

/-- Legacy record with no height entry: bmi key falls back to 0. -/
def rawC : RawRecord :=
  { id := none, name := none, city := none, age := none, gender := none,
    height := none, weight := some 50, bmi := none, verdict := none }

theorem sort_key_rawA : sort_key "bmi" rawA = 31.25 := by
  norm_num [sort_key, rawA, round2, roundHalfEven]

theorem sort_key_rawB : sort_key "bmi" rawB = 31.25 := by
  norm_num [sort_key, rawB, round2, roundHalfEven]

theorem sort_key_rawC : sort_key "bmi" rawC = 0 := by
  norm_num [sort_key, rawC]

/-- C7 witness: sorting three concrete records by bmi descending, where two
records tie at key 31.25 and one falls back to key 0, keeps the tied
records in input order; an unsupported field is rejected. -/
theorem sort_patients_spec_witness :
    sort_patients "age" "asc" [rawA, rawB, rawC] = .error .invalidArgument ∧
    stableSort (leDesc (sort_key "bmi")) [rawA, rawB, rawC] = [rawA, rawB, rawC] ∧
    sort_patients "bmi" "desc" [rawA, rawB, rawC] =
      .ok (stableSort (leDesc (sort_key "bmi")) [rawA, rawB, rawC]) ∧
    List.Perm (stableSort (leDesc (sort_key "bmi")) [rawA, rawB, rawC])
      [rawA, rawB, rawC] ∧
    (stableSort (leDesc (sort_key "bmi")) [rawA, rawB, rawC]).Pairwise
      (fun a b => sort_key "bmi" b ≤ sort_key "bmi" a) ∧
    (∀ k : ℚ, (stableSort (leDesc (sort_key "bmi")) [rawA, rawB, rawC]).filter
        (fun r => decide (sort_key "bmi" r = k)) =
      ([rawA, rawB, rawC] : List RawRecord).filter
        (fun r => decide (sort_key "bmi" r = k))) := by
  have h := (sort_patients_spec "bmi" "desc" [rawA, rawB, rawC]).2.2.2.2.2
    (by decide) rfl
  have hBC : leDesc (sort_key "bmi") rawB rawC = true := by
    rw [leDesc, sort_key_rawB, sort_key_rawC]
    simp only [decide_eq_true_eq]
    norm_num
  have hAB : leDesc (sort_key "bmi") rawA rawB = true := by
    rw [leDesc, sort_key_rawA, sort_key_rawB]
    simp only [decide_eq_true_eq]
    norm_num
  have e0 : insertOrdered (leDesc (sort_key "bmi")) rawC ([] : List RawRecord) =
      [rawC] := by
    rw [insertOrdered]
  have e1 : insertOrdered (leDesc (sort_key "bmi")) rawB [rawC] = [rawB, rawC] := by
    rw [insertOrdered, if_pos hBC]
  have e2 : insertOrdered (leDesc (sort_key "bmi")) rawA [rawB, rawC] =
      [rawA, rawB, rawC] := by
    rw [insertOrdered, if_pos hAB]
  refine ⟨(sort_patients_spec "age" "asc" [rawA, rawB, rawC]).1
    (Or.inl (by decide)), ?_, h.1, h.2.1, h.2.2.1, h.2.2.2⟩
  simp only [stableSort, e0, e1, e2]

/-- C8: view and delete fail with NotFound exactly when the id is absent
from the loaded record set, and after a successful delete a view of the
same id yields NotFound. -/
theorem get_delete_not_found (pid : String) (data : RecordSet) :
    (view_patient pid data = .error .notFound ↔ pid ∉ data) ∧
    (delete_patient pid data = .error .notFound ↔ pid ∉ data) ∧
    (∀ d₁, delete_patient pid data = .ok d₁ →
      view_patient pid d₁ = .error .notFound) := by
  refine ⟨?_, ?_, fun d₁ h => ?_⟩
  · rw [← RecordSet.lookup_eq_none_iff]
    cases hex : data.lookup pid with
    | none => simp [view_patient.eq_def, hex]
    | some r => simp [view_patient.eq_def, hex]
  · rw [← RecordSet.lookup_eq_none_iff]
    cases hex : data.lookup pid with
    | none => simp [delete_patient.eq_def, hex]
    | some r => simp [delete_patient.eq_def, hex]
  · have hd : d₁ = data.remove pid := by
      rw [delete_patient.eq_def] at h
      split at h
      · exact absurd h (by simp)
      · exact (Except.ok.inj h).symm
    rw [hd, view_patient.eq_def, RecordSet.lookup_remove_self]

/-- C8 witness: deleting the single record of a one-record store succeeds
and a subsequent view of the deleted id is NotFound. -/
theorem get_delete_not_found_witness :
    delete_patient "A1B2C3D4" d₀ = .ok (d₀.remove "A1B2C3D4") ∧
    view_patient "A1B2C3D4" (d₀.remove "A1B2C3D4") = .error .notFound := by
  have hdel : delete_patient "A1B2C3D4" d₀ = .ok (d₀.remove "A1B2C3D4") := by
    have hl : d₀.lookup "A1B2C3D4" = some exRec1 := RecordSet.lookup_store_self ..
    rw [delete_patient.eq_def, hl]
  exact ⟨hdel,
    (get_delete_not_found "A1B2C3D4" d₀).2.2 (d₀.remove "A1B2C3D4") hdel⟩

/-- C9: load_data returns the empty record set when the file is missing or
its contents are unparsable, returns the parsed state otherwise, and always
yields some record set rather than propagating a read error. -/
theorem load_fails_open_to_empty :
    load_data .missing = (∅ : RecordSet) ∧
    load_data .corrupt = (∅ : RecordSet) ∧
    (∀ rs : RecordSet, load_data (.ok rs) = rs) ∧
    (∀ d : DiskState, ∃ rs : RecordSet, load_data d = rs) :=
  ⟨rfl, rfl, fun _ => rfl, fun d => ⟨load_data d, rfl⟩⟩

/-- C10: after any successful update the record persisted under the id has
no "id" entry; therefore every subsequent update of that id fails with a
validation error regardless of the payload (Patient(**existing) cannot be
rebuilt without the id field), and a view of the id returns the record
without its id. -/
theorem second_update_always_validation_error (pid : String) (u : PatientUpdate)
    (data : RecordSet) (ex : StoredRecord) (j : String)
    (hval : validUpdatePayload u) (hex : data.lookup pid = some ex)
    (hid : ex.id = some j) (hcand : validCreate (overlay ex u)) :
    update_patient pid u data =
      .ok (pid, data.store pid (mkStored (overlay ex u) none)) ∧
    (data.store pid (mkStored (overlay ex u) none)).lookup pid =
      some (mkStored (overlay ex u) none) ∧
    (mkStored (overlay ex u) none).id = none ∧
    (∀ u₂, update_patient pid u₂
      (data.store pid (mkStored (overlay ex u) none)) = .error .validation) ∧
    view_patient pid (data.store pid (mkStored (overlay ex u) none)) =
      .ok (mkStored (overlay ex u) none) := by
  refine ⟨update_patient_eq_ok hval hex hid hcand,
    RecordSet.lookup_store_self .., rfl, fun u₂ => ?_, ?_⟩
  · by_cases hv2 : validUpdatePayload u₂
    · exact update_patient_no_id hv2 (RecordSet.lookup_store_self ..) rfl
    · exact update_patient_bad_payload hv2
  · rw [view_patient.eq_def, RecordSet.lookup_store_self]

/-- C10 witness: the update of the concrete one-record store d₀ with the
weight-only payload, followed by a second update with the age-only payload,
which fails with a validation error. -/
theorem second_update_always_validation_error_witness :
    update_patient "A1B2C3D4" uWeight d₀ =
      .ok ("A1B2C3D4", d₀.store "A1B2C3D4" (mkStored cand₁ none)) ∧
    (mkStored cand₁ none).id = none ∧
    update_patient "A1B2C3D4" uAge
      (d₀.store "A1B2C3D4" (mkStored cand₁ none)) = .error .validation ∧
    view_patient "A1B2C3D4" (d₀.store "A1B2C3D4" (mkStored cand₁ none)) =
      .ok (mkStored cand₁ none) := by
  have h := second_update_always_validation_error "A1B2C3D4" uWeight d₀ exRec1
    "A1B2C3D4" validUpdatePayload_uWeight (RecordSet.lookup_store_self ..) rfl
    validCreate_cand₁
  exact ⟨h.1, h.2.2.1, h.2.2.2.1 uAge, h.2.2.2.2⟩

end Hospital
